import Mathlib

/-!
Formal model of the monitored-key registry, event filters, transfer
verification and console helpers of the Peernet `Cmd` utility.

The Go program keeps a process-wide map `monitorKeys : map[string]io.Writer`
protected by a mutex.  We model the map as a function from keys (Go
`string(key)`) to `Option σ`, where `σ` is an abstract type of output sinks
(`io.Writer` values, including the nil writer).  All definitions are
transcribed from the Go source; doc comments name the source function.
-/

/-- The process-wide monitored-key map `monitorKeys map[string]io.Writer`
(`var monitorKeys map[string]io.Writer`): a key is either absent (`none`)
or bound to a sink. -/
def Registry (σ : Type) : Type := String → Option σ

/-- The registry with no keys monitored (`make(map[string]io.Writer)`). -/
def emptyRegistry (σ : Type) : Registry σ := fun _ => none

/-- `hashMonitorControl` from the source: adds (action 0), removes
(action 1), or inverts (action 2) a key on the monitored list.  The Go
`switch` falls through to no change for any other action, and the named
return `added` defaults to `false`.  Action 0 is a plain Go map
assignment `monitorKeys[string(key)] = output`. -/
def hashMonitorControl {σ : Type} (m : Registry σ) (key : String) (action : Nat) (output : σ) :
    Registry σ × Bool :=
  if action = 0 then
    (fun k => if k = key then some output else m k, true)
  else if action = 1 then
    (fun k => if k = key then none else m k, false)
  else if action = 2 then
    match m key with
    | none => (fun k => if k = key then some output else m k, true)
    | some _ => (fun k => if k = key then none else m k, false)
  else
    (m, false)

/-- **C1 (counterexample).** Starting from the empty registry, `add("k", 0)`
followed by `add("k", 1)` leaves `"k"` bound to the *second* sink and the
second call returns `true` — refuting the claim that the second add
returns `false` and leaves the first sink in place. -/
theorem hashMonitorControl_add_overwrite_cx :
    (hashMonitorControl (hashMonitorControl (emptyRegistry Nat) "k" 0 0).1 "k" 0 1).2 = true
    ∧ (hashMonitorControl (hashMonitorControl (emptyRegistry Nat) "k" 0 0).1 "k" 0 1).1 "k" = some 1 := by
  constructor
  · rfl
  · simp [hashMonitorControl]

/-- **C1 (amended).** The add operation (`hashMonitorControl` with action 0)
unconditionally binds the key to the new sink — last writer wins — and
always returns `true`, whether or not the key was already present. -/
theorem hashMonitorControl_add_spec {σ : Type} (m : Registry σ) (k : String) (s : σ) :
    (hashMonitorControl m k 0 s).1 k = some s
    ∧ (hashMonitorControl m k 0 s).2 = true := by
  constructor
  · simp [hashMonitorControl]
  · rfl

/-- **C2.** The toggle operation (`hashMonitorControl` with action 2)
removes a present key returning `false` and adds an absent key returning
`true`; two successive toggles restore the key's prior membership state,
and the second return value is the negation of the first. -/
theorem hashMonitorControl_toggle_spec {σ : Type} (m : Registry σ) (k : String) (s1 s2 : σ) :
    (hashMonitorControl m k 2 s1).2 = (m k).isNone
    ∧ (hashMonitorControl m k 2 s1).1 k =
        (match m k with | some _ => none | none => some s1)
    ∧ (((hashMonitorControl (hashMonitorControl m k 2 s1).1 k 2 s2).1 k).isSome = (m k).isSome)
    ∧ (hashMonitorControl (hashMonitorControl m k 2 s1).1 k 2 s2).2
        = !(hashMonitorControl m k 2 s1).2 := by
  cases h : m k <;> simp [hashMonitorControl, h]

/-- `hashIsMonitored` from the source: scans the given keys in order and
returns the first hit together with its sink; `(false, none)` when no key
is on the monitored list. -/
def hashIsMonitored {σ : Type} (m : Registry σ) : List String → Bool × Option σ
  | [] => (false, none)
  | k :: rest =>
    match m k with
    | some o => (true, some o)
    | none => hashIsMonitored m rest

/-- Special key to monitor all searches (`keyMonitorAllSearches`). -/
def keyMonitorAllSearches : String := "all searches"

/-- Special key to monitor all info requests (`keyMonitorAllRequests`). -/
def keyMonitorAllRequests : String := "all requests"

/-- `filterSearchStatus` from the source: checks
`hashIsMonitored(client.Key, keyMonitorAllSearches)` and returns without
writing when unmonitored; otherwise writes the rendered line to the
sink returned by the registry.  The rendered text (intend marker, hex of
the key, format arguments) is abstracted as the `rendered` argument; the
result is `some (sink, text)` when a write happens, `none` otherwise. -/
def filterSearchStatus {σ : Type} (m : Registry σ) (clientKey : String) (rendered : String) :
    Option (Option σ × String) :=
  let mo := hashIsMonitored m [clientKey, keyMonitorAllSearches]
  if mo.1 then some (mo.2, rendered) else none

/-- `filterIncomingRequest` from the source: checks
`hashIsMonitored(peer.NodeID, keyMonitorAllRequests)` and returns without
writing when unmonitored; the rendered request description is abstracted
as `rendered`. -/
def filterIncomingRequest {σ : Type} (m : Registry σ) (peerNodeID : String) (rendered : String) :
    Option (Option σ × String) :=
  let mo := hashIsMonitored m [peerNodeID, keyMonitorAllRequests]
  if mo.1 then some (mo.2, rendered) else none

/-- `filterMessageIn` from the source: checks `hashIsMonitored(peer.NodeID)`
(no sentinel key applies) and returns without writing when unmonitored;
the rendered packet dump is abstracted as `rendered`. -/
def filterMessageIn {σ : Type} (m : Registry σ) (peerNodeID : String) (rendered : String) :
    Option (Option σ × String) :=
  let mo := hashIsMonitored m [peerNodeID]
  if mo.1 then some (mo.2, rendered) else none

/-- `outputOutgoingMessage` from the source (shared by all
`filterMessageOut*` callbacks): checks `hashIsMonitored(peer.NodeID)` and
returns without writing when unmonitored. -/
def outputOutgoingMessage {σ : Type} (m : Registry σ) (peerNodeID : String) (rendered : String) :
    Option (Option σ × String) :=
  let mo := hashIsMonitored m [peerNodeID]
  if mo.1 then some (mo.2, rendered) else none

/-- **C9.** When neither the event's own key nor the applicable sentinel
`"all"` key is on the monitored list, every event filter — search status,
incoming request, inbound message, outbound message — returns without
writing anything to any sink (result `none`, no rendering delivered). -/
theorem filters_silent_when_unmonitored {σ : Type} (m : Registry σ)
    (clientKey nodeID : String) (r1 r2 r3 r4 : String)
    (hck : m clientKey = none) (hnid : m nodeID = none)
    (hs : m keyMonitorAllSearches = none) (hr : m keyMonitorAllRequests = none) :
    filterSearchStatus m clientKey r1 = none
    ∧ filterIncomingRequest m nodeID r2 = none
    ∧ filterMessageIn m nodeID r3 = none
    ∧ outputOutgoingMessage m nodeID r4 = none := by
  refine ⟨?_, ?_, ?_, ?_⟩ <;>
    simp [filterSearchStatus, filterIncomingRequest, filterMessageIn, outputOutgoingMessage,
      hashIsMonitored, hck, hnid, hs, hr]

/-- **C9 (witness).** Concrete instance: the empty registry silences all
four filters. -/
theorem filters_silent_when_unmonitored_witness :
    filterSearchStatus (emptyRegistry Nat) "ck" "t1" = none
    ∧ filterIncomingRequest (emptyRegistry Nat) "nid" "t2" = none
    ∧ filterMessageIn (emptyRegistry Nat) "nid" "t3" = none
    ∧ outputOutgoingMessage (emptyRegistry Nat) "nid" "t4" = none :=
  filters_silent_when_unmonitored (emptyRegistry Nat) "ck" "nid" "t1" "t2" "t3" "t4"
    rfl rfl rfl rfl

/-- Result of `debugCmdConnect` as far as the monitored-key registry is
concerned: the registry in effect while the bounded DHT lookup runs
(`none` when no lookup is performed because the target is already a
contact), and the registry after the function returns. -/
structure ConnectRegistryTrace (σ : Type) where
  duringLookup : Option (Registry σ)
  final : Registry σ

/-- `debugCmdConnect` from the source, restricted to its effect on the
monitored-key registry.  When the node is not in the local routing table
(`isContact = false`) it calls `hashMonitorControl(nodeID, 0, output)`
and registers `defer hashMonitorControl(nodeID, 1, nil)`, then performs
`backend.FindNode` with a 10 second timeout; whether the peer is found
(`found = true`) or not (early `return`), the deferred removal runs on
every exit path.  The `nilWriter` argument stands for Go's nil writer
passed to the deferred call; action 1 ignores it. -/
def debugCmdConnect {σ : Type} (reg : Registry σ) (nodeID : String)
    (isContact found : Bool) (output nilWriter : σ) : ConnectRegistryTrace σ :=
  if isContact then
    ⟨none, reg⟩
  else
    let regWatched := (hashMonitorControl reg nodeID 0 output).1
    -- `found = false` is the not-found early return, `found = true` the
    -- normal exit; the deferred removal runs on both paths, so the final
    -- registry does not depend on `found`.
    let regAfter := (hashMonitorControl regWatched nodeID 1 nilWriter).1
    ⟨some regWatched, regAfter⟩

/-- **C6.** When the target is not already a known contact,
`debugCmdConnect` adds the node identifier to the monitored-key registry
before the bounded lookup (the registry in effect during the lookup binds
it to the command's output sink), and on every exit path — peer found or
not — the identifier is absent from the final registry. -/
theorem debugCmdConnect_unwatches {σ : Type} (reg : Registry σ) (nodeID : String)
    (isContact found : Bool) (output nilWriter : σ) (h : isContact = false) :
    (∃ regWatched, (debugCmdConnect reg nodeID isContact found output nilWriter).duringLookup
        = some regWatched ∧ regWatched nodeID = some output)
    ∧ (debugCmdConnect reg nodeID isContact found output nilWriter).final nodeID = none := by
  subst h
  refine ⟨⟨(hashMonitorControl reg nodeID 0 output).1, rfl, ?_⟩, ?_⟩
  · simp [hashMonitorControl]
  · cases found <;> simp [debugCmdConnect, hashMonitorControl]

/-- **C6 (witness).** Concrete run: node `"n"` not a contact, lookup fails;
the key is watched during the lookup and gone afterwards. -/
theorem debugCmdConnect_unwatches_witness :
    (∃ regWatched, (debugCmdConnect (emptyRegistry Nat) "n" false false 7 0).duringLookup
        = some regWatched ∧ regWatched "n" = some 7)
    ∧ (debugCmdConnect (emptyRegistry Nat) "n" false false 7 0).final "n" = none :=
  debugCmdConnect_unwatches (emptyRegistry Nat) "n" false false 7 0 rfl

/-- The deferred cleanup of `userCommands`: on session teardown every hash
in the session-local set `monitoredHashes` is removed from the
process-wide registry via `hashMonitorControl(hash, 1, nil)`.  The Go map
iteration is modelled as a list fold; `nilWriter` stands for the nil
writer, ignored by action 1. -/
def userCommandsTeardown {σ : Type} (reg : Registry σ) (monitoredHashes : List String)
    (nilWriter : σ) : Registry σ :=
  monitoredHashes.foldl (fun r h => (hashMonitorControl r h 1 nilWriter).1) reg

/-- **C7 (counterexample).** Session A enabled `"all searches"` (sink 0),
session B re-enabled it (sink 1, still present in the registry); when
session A tears down with `"all searches"` in its monitored set, the
sentinel is removed from the registry — it is *not* restored to the state
session B had enabled. -/
theorem userCommandsTeardown_sentinel_cx :
    (hashMonitorControl (hashMonitorControl (emptyRegistry Nat)
        keyMonitorAllSearches 0 0).1 keyMonitorAllSearches 0 1).1 keyMonitorAllSearches = some 1
    ∧ userCommandsTeardown ((hashMonitorControl (hashMonitorControl (emptyRegistry Nat)
        keyMonitorAllSearches 0 0).1 keyMonitorAllSearches 0 1).1)
        [keyMonitorAllSearches] 0 keyMonitorAllSearches = none := by
  constructor
  · simp [hashMonitorControl]
  · simp [userCommandsTeardown, hashMonitorControl]

/-- **C7 (amended).** Session teardown unconditionally removes every key of
the session's monitored set — sentinel `"all"` keys included — from the
process-wide registry, regardless of what the registry held before
(in particular a binding another session had enabled); keys outside the
session's set are left unchanged. -/
theorem userCommandsTeardown_spec {σ : Type} (reg : Registry σ)
    (monitoredHashes : List String) (nilWriter : σ) (k : String) :
    userCommandsTeardown reg monitoredHashes nilWriter k =
      if k ∈ monitoredHashes then none else reg k := by
  induction monitoredHashes generalizing reg with
  | nil => simp [userCommandsTeardown]
  | cons h rest ih =>
    have step : userCommandsTeardown reg (h :: rest) nilWriter =
        userCommandsTeardown ((hashMonitorControl reg h 1 nilWriter).1) rest nilWriter := rfl
    rw [step, ih]
    by_cases hk : k ∈ rest
    · simp [hk, List.mem_cons]
    · by_cases hkh : k = h
      · subst hkh
        simp [hk, hashMonitorControl]
      · simp [hk, hkh, hashMonitorControl, List.mem_cons]

/-- One attempt of `reader.ReadString('\n')` as seen by `readUserText`:
the call yields a full line, fails immediately (a drained reader
returning an error such as `io.EOF`), or blocks with no data and no
error — a blocking source such as an idle terminal. -/
inductive ReadAttempt where
  | line (s : String)
  | readErr
  | blocked
  deriving DecidableEq

/-- Outcome of a `readUserText` call: either the function returns the Go
triple `(text, valid, terminate)`, or the current read attempt blocks and
the call never returns. -/
inductive ReadUserTextResult where
  | returns (text : String) (valid terminate : Bool)
  | blocksForever
  deriving DecidableEq

/-- The retry loop of `readUserText` from the source, iteration `i`
onwards: try `ReadString`; on success return the trimmed line with
`valid = true`; on an immediate error consult the termination signal
(`signal i` is whether the signal channel is closed when iteration `i`
polls it) and either return `("", false, true)` or sleep
`timeRetryUserInput` (500 ms) and retry.  `attempts` lists the outcome of
each successive read call; an empty suffix behaves like a reader that
blocks from then on. -/
def readUserTextLoop (signal : Nat → Bool) : List ReadAttempt → Nat → ReadUserTextResult
  | [], _ => .blocksForever
  | .blocked :: _, _ => .blocksForever
  | .line s :: _, _ => .returns s.trim true false
  | .readErr :: rest, i =>
    if signal i then .returns "" false true else readUserTextLoop signal rest (i + 1)

/-- `readUserText` from the source, driven by the oracle `attempts` of
read-call outcomes and the termination-signal state `signal`. -/
def readUserText (attempts : List ReadAttempt) (signal : Nat → Bool) : ReadUserTextResult :=
  readUserTextLoop signal attempts 0

/-- **C8 (counterexample).** A single blocking read call refutes the claim
for arbitrary input sources: with the termination signal already raised,
`readUserText` on a source whose first read blocks never returns at all —
it does not return `terminate = true` within any bound, because the
signal is only checked after a read call fails (the source comments:
the termination signal takes effect once the reader is drained). -/
theorem readUserText_blocking_cx :
    readUserText [ReadAttempt.blocked] (fun _ => true) = ReadUserTextResult.blocksForever := rfl

/-- **C8 (amended).** For a drained input source — every poll's read call
fails immediately — a termination signal first observed raised at poll
`k` makes `readUserText` return `("", false, true)` at that very poll:
cancellation is detected on the first poll after the signal is raised,
i.e. within one poll interval (`timeRetryUserInput` = 500 ms) whenever
each read call itself returns promptly. -/
theorem readUserText_drained_terminates (attempts : List ReadAttempt) (signal : Nat → Bool)
    (k : Nat) (hdrained : ∀ j, j ≤ k → attempts.get? j = some ReadAttempt.readErr)
    (hsig : signal k = true) (hbefore : ∀ j, j < k → signal j = false) :
    readUserText attempts signal = ReadUserTextResult.returns "" false true := by
  suffices h : ∀ k attempts, (∀ j, j ≤ k → attempts.get? j = some ReadAttempt.readErr) →
      ∀ i, signal (i + k) = true → (∀ j, j < k → signal (i + j) = false) →
      readUserTextLoop signal attempts i = ReadUserTextResult.returns "" false true by
    have := h k attempts hdrained 0 (by simpa using hsig) (by simpa using hbefore)
    simpa [readUserText] using this
  intro k
  induction k with
  | zero =>
    intro attempts hdr i hsig' _
    have h0 := hdr 0 (Nat.le_refl 0)
    cases attempts with
    | nil => simp at h0
    | cons a rest =>
      simp at h0
      subst h0
      simpa [readUserTextLoop] using fun hfalse => absurd (by simpa using hsig') (by simp [hfalse])
  | succ n ih =>
    intro attempts hdr i hsig' hbef
    have h0 := hdr 0 (Nat.zero_le _)
    cases attempts with
    | nil => simp at h0
    | cons a rest =>
      simp at h0
      subst h0
      have hsig0 : signal i = false := by simpa using hbef 0 (Nat.succ_pos n)
      have hrest : ∀ j, j ≤ n → rest.get? j = some ReadAttempt.readErr := by
        intro j hj
        simpa using hdr (j + 1) (by omega)
      have hnext := ih rest hrest (i + 1)
        (by simpa [Nat.add_assoc, Nat.add_comm, Nat.add_left_comm] using hsig')
        (by intro j hj; simpa [Nat.add_assoc, Nat.add_comm, Nat.add_left_comm] using
          hbef (j + 1) (by omega))
      simpa [readUserTextLoop, hsig0] using hnext

/-- The three bytes of the literal `"..."` inserted by `shortenText`
(Go string concatenation works on bytes; `.` is byte 46). -/
def dotsBytes : List Nat := [46, 46, 46]

/-- `shortenText` from the source, on byte sequences (Go `len` and string
slicing operate on bytes): returns the text unchanged when
`len(text) < maxLength`, otherwise
`text[:maxLength/2] + "..." + text[len(text)-maxLength/2:]`. -/
def shortenText (text : List Nat) (maxLength : Nat) : List Nat :=
  if text.length < maxLength then text
  else text.take (maxLength / 2) ++ dotsBytes ++ text.drop (text.length - maxLength / 2)

/-- **C10 (counterexample).** For the 5-byte input `[1, 2, 3, 4, 5]` and
bound `m = 5` (input length equal to the bound, `m` odd), the result
`[1, 2, 46, 46, 46, 4, 5]` has length 7 = m + 2, not m + 3 as claimed. -/
theorem shortenText_odd_bound_cx :
    shortenText [1, 2, 3, 4, 5] 5 = [1, 2, 46, 46, 46, 4, 5]
    ∧ (shortenText [1, 2, 3, 4, 5] 5).length = 7
    ∧ (shortenText [1, 2, 3, 4, 5] 5).length ≠ 5 + 3 := by
  refine ⟨?_, ?_, ?_⟩ <;> decide

/-- **C10 (amended).** `shortenText text m` returns `text` unchanged when
`len text < m`, and otherwise the first `⌊m/2⌋` bytes, then `"..."`, then
the last `⌊m/2⌋` bytes; for an input whose length equals the bound `m`
the result has length `2*⌊m/2⌋ + 3` — that is `m + 3` for even `m` but
`m + 2` for odd `m` — which still exceeds both the bound and the input's
own length. -/
theorem shortenText_spec (text : List Nat) (m : Nat) :
    shortenText text m =
      (if text.length < m then text
       else text.take (m / 2) ++ dotsBytes ++ text.drop (text.length - m / 2))
    ∧ (shortenText text text.length).length = 2 * (text.length / 2) + 3
    ∧ text.length < (shortenText text text.length).length
    ∧ (shortenText text text.length).length =
        (if text.length % 2 = 0 then text.length + 3 else text.length + 2) := by
  have hlen : (shortenText text text.length).length = 2 * (text.length / 2) + 3 := by
    have hnot : ¬ text.length < text.length := Nat.lt_irrefl _
    have htake : (text.take (text.length / 2)).length = text.length / 2 := by
      simp [List.length_take, Nat.min_eq_left (Nat.div_le_self _ _)]
    have hdrop : (text.drop (text.length - text.length / 2)).length = text.length / 2 := by
      simp [List.length_drop]
      omega
    simp [shortenText, hnot, htake, hdrop, dotsBytes]
    omega
  refine ⟨rfl, hlen, ?_, ?_⟩
  · rw [hlen]; omega
  · rw [hlen]
    by_cases h : text.length % 2 = 0 <;> simp [h] <;> omega

/-- The reports `transferCompareFile` writes to its output, one constructor
per `fmt.Fprintf` line modelled (progress lines are time-triggered and
omitted; connection-stage lines precede the modelled fragment). -/
inductive TransferEvent where
  /-- `Error expected local file size %d mismatch with remote file size %d` -/
  | sizeMismatchFile (expectedSize fileSize : Nat)
  /-- `Error remote peer only offering %d of total file size %d` -/
  | sizeMismatchTransfer (transferSize fileSize : Nat)
  /-- `3. Matching transfer size %d and file size %d` -/
  | sizeMatch (transferSize expectedSize : Nat)
  /-- `-- TERMINATE: EMPTY READ but no error indicated.` -/
  | terminateEmptyRead (n totalAt : Nat)
  /-- `-- TERMINATE: EVERYTHING READ. Read %d bytes. Total read %d` -/
  | terminateEverythingRead (n totalAt : Nat)
  /-- `Offset %08X   read %d   DATA MISMATCH` -/
  | dataMismatch (fileOffset n : Nat)
  /-- `Error transferred data %d mismatch with reported file size %d` -/
  | finalSizeError (totalRead fileSize : Nat)
  /-- `Finished reading total of %d bytes. Expected %d bytes.` -/
  | finishedReading (totalRead fileSize : Nat)
  deriving DecidableEq

/-- Observable outcome of a `transferCompareFile` run: the reports written
to the output, the `totalRead` counter, and the number of bytes that went
through the `bytes.Equal` comparison against the local warehouse. -/
structure CompareResult where
  events : List TransferEvent
  totalRead : Nat
  comparedBytes : Nat
  deriving DecidableEq

/-- The read-and-compare loop of `transferCompareFile` from the source.
`remote` is the byte stream the remote peer sends (byte at each offset),
`local` the byte content of the local warehouse file; each
`udtConn.Read` returns the full requested buffer of
`maxSize = min(4096, dataRemaining)` bytes and the warehouse `ReadFile`
returns the full requested range, so the error branches for short reads
cannot fire.  Faithful to the source's order of checks: a zero-byte read
terminates (`EMPTY READ`), then `dataRemaining <= 0` terminates
(`EVERYTHING READ`) *before* the local range is read and compared, and
only otherwise are the two buffers compared, terminating at the first
differing chunk (`DATA MISMATCH` at the chunk's `fileOffset`). -/
def transferCompareLoop (remote localData : Nat → Nat)
    (fileOffset dataRemaining totalRead comparedBytes : Nat) : CompareResult :=
  if min 4096 dataRemaining = 0 then
    ⟨[TransferEvent.terminateEmptyRead 0 totalRead], totalRead, comparedBytes⟩
  else if dataRemaining - min 4096 dataRemaining = 0 then
    ⟨[TransferEvent.terminateEverythingRead (min 4096 dataRemaining)
        (totalRead + min 4096 dataRemaining)],
      totalRead + min 4096 dataRemaining, comparedBytes⟩
  else if (List.range (min 4096 dataRemaining)).map (fun i => remote (fileOffset + i))
      = (List.range (min 4096 dataRemaining)).map (fun i => localData (fileOffset + i)) then
    transferCompareLoop remote localData (fileOffset + min 4096 dataRemaining)
      (dataRemaining - min 4096 dataRemaining) (totalRead + min 4096 dataRemaining)
      (comparedBytes + min 4096 dataRemaining)
  else
    ⟨[TransferEvent.dataMismatch fileOffset (min 4096 dataRemaining)],
      totalRead + min 4096 dataRemaining, comparedBytes + min 4096 dataRemaining⟩
termination_by dataRemaining
decreasing_by omega

/-- `transferCompareFile` from the source, from the point where the
transfer header has been read: `expectedSize` is the local warehouse
file's size, `fileSize` and `transferSize` the header's declared total
and offered sizes.  The two size checks run before the loop; after the
loop the code reports an error when `totalRead != expectedSize` and the
final `Finished reading` line otherwise. -/
def transferCompareFile (expectedSize fileSize transferSize : Nat)
    (remote localData : Nat → Nat) : CompareResult :=
  if fileSize ≠ expectedSize then
    ⟨[TransferEvent.sizeMismatchFile expectedSize fileSize], 0, 0⟩
  else if fileSize ≠ transferSize then
    ⟨[TransferEvent.sizeMismatchTransfer transferSize fileSize], 0, 0⟩
  else
    let r := transferCompareLoop remote localData 0 fileSize 0 0
    let post := if r.totalRead ≠ expectedSize
      then TransferEvent.finalSizeError r.totalRead fileSize
      else TransferEvent.finishedReading r.totalRead fileSize
    ⟨TransferEvent.sizeMatch transferSize expectedSize :: r.events ++ [post],
      r.totalRead, r.comparedBytes⟩

/-- Unfolds `transferCompareLoop` once when `0 < dataRemaining ≤ 4096`: the
final chunk is read and the loop terminates with `EVERYTHING READ`
without comparing it against the local warehouse. -/
theorem transferCompareLoop_final (remote localData : Nat → Nat)
    (fileOffset dataRemaining totalRead comparedBytes : Nat)
    (h1 : 0 < dataRemaining) (h2 : dataRemaining ≤ 4096) :
    transferCompareLoop remote localData fileOffset dataRemaining totalRead comparedBytes =
      ⟨[TransferEvent.terminateEverythingRead dataRemaining (totalRead + dataRemaining)],
        totalRead + dataRemaining, comparedBytes⟩ := by
  rw [transferCompareLoop, show min 4096 dataRemaining = dataRemaining from by omega,
    if_neg (by omega), if_pos (by omega)]

/-- Unfolds `transferCompareLoop` once when more than a full chunk remains
and the current chunk differs from the local data: the loop stops with a
`DATA MISMATCH` report at the chunk's starting offset. -/
theorem transferCompareLoop_mismatch (remote localData : Nat → Nat)
    (fileOffset dataRemaining totalRead comparedBytes : Nat)
    (h1 : 4096 < dataRemaining)
    (hq : (List.range 4096).map (fun i => remote (fileOffset + i))
      ≠ (List.range 4096).map (fun i => localData (fileOffset + i))) :
    transferCompareLoop remote localData fileOffset dataRemaining totalRead comparedBytes =
      ⟨[TransferEvent.dataMismatch fileOffset 4096],
        totalRead + 4096, comparedBytes + 4096⟩ := by
  rw [transferCompareLoop, show min 4096 dataRemaining = 4096 from by omega,
    if_neg (by omega), if_neg (by omega), if_neg hq]

/-- Unfolds `transferCompareLoop` once when more than a full chunk remains
and the current chunk equals the local data: the loop advances to the
next chunk. -/
theorem transferCompareLoop_step (remote localData : Nat → Nat)
    (fileOffset dataRemaining totalRead comparedBytes : Nat)
    (h1 : 4096 < dataRemaining)
    (hq : (List.range 4096).map (fun i => remote (fileOffset + i))
      = (List.range 4096).map (fun i => localData (fileOffset + i))) :
    transferCompareLoop remote localData fileOffset dataRemaining totalRead comparedBytes =
      transferCompareLoop remote localData (fileOffset + 4096) (dataRemaining - 4096)
        (totalRead + 4096) (comparedBytes + 4096) := by
  rw [transferCompareLoop, show min 4096 dataRemaining = 4096 from by omega,
    if_neg (by omega), if_neg (by omega), if_pos hq]

/-- Main loop analysis: when the remote stream and the local data agree on
all bytes before `N` and differ at byte `N`, and the 4096-byte chunk that
contains `N` is not the final chunk of the transfer, the loop terminates
with a `DATA MISMATCH` report at the *chunk-aligned* offset
`4096 * (N / 4096)` — not at `N` itself — having read and compared
exactly through the end of that chunk. -/
theorem transferCompareLoop_divergence (remote localData : Nat → Nat) (N : Nat)
    (hagree : ∀ i, i < N → remote i = localData i) (hdiv : remote N ≠ localData N) :
    ∀ dataRemaining fileOffset totalRead comparedBytes,
      fileOffset % 4096 = 0 → fileOffset ≤ N →
      4096 * (N / 4096) + 4096 < fileOffset + dataRemaining →
      transferCompareLoop remote localData fileOffset dataRemaining totalRead comparedBytes =
        ⟨[TransferEvent.dataMismatch (4096 * (N / 4096)) 4096],
          totalRead + (4096 * (N / 4096) + 4096 - fileOffset),
          comparedBytes + (4096 * (N / 4096) + 4096 - fileOffset)⟩ := by
  intro dataRemaining
  induction dataRemaining using Nat.strong_induction_on with
  | _ dr ih =>
    intro fo tr cb hmod hle hin
    have hfos : fo ≤ 4096 * (N / 4096) := by omega
    have hdr : 4096 < dr := by omega
    by_cases hfo : fo = 4096 * (N / 4096)
    · -- the current chunk contains the divergence point N
      have hq : (List.range 4096).map (fun i => remote (fo + i))
          ≠ (List.range 4096).map (fun i => localData (fo + i)) := by
        intro hEq
        rw [List.map_eq_map_iff] at hEq
        have hmem : (N - fo) ∈ List.range 4096 := by
          rw [List.mem_range]; omega
        have := hEq _ hmem
        rw [show fo + (N - fo) = N from by omega] at this
        exact hdiv this
      rw [transferCompareLoop_mismatch remote localData fo dr tr cb hdr hq, hfo]
      have harith : 4096 * (N / 4096) + 4096 - 4096 * (N / 4096) = 4096 := by omega
      rw [harith]
    · -- the current chunk lies strictly before the divergence point
      have hfo4 : fo + 4096 ≤ 4096 * (N / 4096) := by omega
      have hq : (List.range 4096).map (fun i => remote (fo + i))
          = (List.range 4096).map (fun i => localData (fo + i)) := by
        rw [List.map_eq_map_iff]
        intro a ha
        rw [List.mem_range] at ha
        exact hagree (fo + a) (by omega)
      rw [transferCompareLoop_step remote localData fo dr tr cb hdr hq]
      rw [ih (dr - 4096) (by omega) (fo + 4096) (tr + 4096) (cb + 4096)
        (by omega) (by omega) (by omega)]
      have h1 : tr + 4096 + (4096 * (N / 4096) + 4096 - (fo + 4096))
          = tr + (4096 * (N / 4096) + 4096 - fo) := by omega
      have h2 : cb + 4096 + (4096 * (N / 4096) + 4096 - (fo + 4096))
          = cb + (4096 * (N / 4096) + 4096 - fo) := by omega
      rw [h1, h2]

/-- Full-run analysis shared by the data-mismatch theorems: with matching
header sizes, prefix agreement up to `N`, divergence at `N`, and the
chunk containing `N` not final, the whole run reports the size match,
then the chunk-aligned `DATA MISMATCH`, then the final size error (the
run read only through the mismatching chunk, fewer bytes than the file
holds). -/
theorem transferCompareFile_divergence_aux (expectedSize N : Nat)
    (remote localData : Nat → Nat)
    (hagree : ∀ i, i < N → remote i = localData i) (hdiv : remote N ≠ localData N)
    (hnonfinal : 4096 * (N / 4096) + 4096 < expectedSize) :
    transferCompareFile expectedSize expectedSize expectedSize remote localData =
      ⟨[TransferEvent.sizeMatch expectedSize expectedSize,
         TransferEvent.dataMismatch (4096 * (N / 4096)) 4096,
         TransferEvent.finalSizeError (4096 * (N / 4096) + 4096) expectedSize],
        4096 * (N / 4096) + 4096, 4096 * (N / 4096) + 4096⟩ := by
  have hloop := transferCompareLoop_divergence remote localData N hagree hdiv
    expectedSize 0 0 0 (by omega) (by omega) (by omega)
  simp only [Nat.zero_add] at hloop
  unfold transferCompareFile
  rw [if_neg (by omega), if_neg (by omega), hloop]
  simp only []
  rw [if_pos (by omega)]
  simp

/-- **C3.** When the remote-declared total file size differs from the
locally expected size, or the offered transfer size differs from the
declared file size, `transferCompareFile` terminates with the matching
size-mismatch report as its only output, before any chunk is read or
compared: `totalRead = 0` and zero bytes compared. -/
theorem transferCompareFile_sizeMismatch_stops (expectedSize fileSize transferSize : Nat)
    (remote localData : Nat → Nat)
    (h : fileSize ≠ expectedSize ∨ transferSize ≠ fileSize) :
    ((transferCompareFile expectedSize fileSize transferSize remote localData).events
        = [TransferEvent.sizeMismatchFile expectedSize fileSize]
      ∨ (transferCompareFile expectedSize fileSize transferSize remote localData).events
        = [TransferEvent.sizeMismatchTransfer transferSize fileSize])
    ∧ (transferCompareFile expectedSize fileSize transferSize remote localData).totalRead = 0
    ∧ (transferCompareFile expectedSize fileSize transferSize remote localData).comparedBytes = 0 := by
  by_cases h1 : fileSize = expectedSize
  · subst h1
    have h2 : ¬ (fileSize = transferSize) := by tauto
    refine ⟨Or.inr ?_, ?_, ?_⟩ <;> simp [transferCompareFile, h2]
  · refine ⟨Or.inl ?_, ?_, ?_⟩ <;> simp [transferCompareFile, h1]

/-- **C3 (witness).** Concrete instance: declared size 6 against expected
size 5 stops the run with the size-mismatch report and nothing read. -/
theorem transferCompareFile_sizeMismatch_stops_witness :
    ((transferCompareFile 5 6 6 (fun _ => 0) (fun _ => 0)).events
        = [TransferEvent.sizeMismatchFile 5 6]
      ∨ (transferCompareFile 5 6 6 (fun _ => 0) (fun _ => 0)).events
        = [TransferEvent.sizeMismatchTransfer 6 6])
    ∧ (transferCompareFile 5 6 6 (fun _ => 0) (fun _ => 0)).totalRead = 0
    ∧ (transferCompareFile 5 6 6 (fun _ => 0) (fun _ => 0)).comparedBytes = 0 :=
  transferCompareFile_sizeMismatch_stops 5 6 6 (fun _ => 0) (fun _ => 0) (Or.inl (by decide))

/-- Remote stream whose byte at offset 5 differs from an all-zero local
file; all other bytes agree. -/
def divergeAtFive : Nat → Nat := fun i => if i = 5 then 1 else 0

/-- All-zero byte content. -/
def allZero : Nat → Nat := fun _ => 0

/-- All-ones byte content. -/
def allOnes : Nat → Nat := fun _ => 1

/-- **C4 (counterexample).** Remote and local data agree for the first 5
bytes and diverge at byte `N = 5` of an 8200-byte transfer; the run
reports the mismatch at the chunk-aligned offset 0, and no data-mismatch
report with offset exactly 5 appears — refuting the claim that the
reported offset is exactly `N`. -/
theorem transferCompareFile_offset_not_exact_cx :
    (∀ i, i < 5 → divergeAtFive i = allZero i) ∧ divergeAtFive 5 ≠ allZero 5
    ∧ (transferCompareFile 8200 8200 8200 divergeAtFive allZero).events =
        [TransferEvent.sizeMatch 8200 8200, TransferEvent.dataMismatch 0 4096,
         TransferEvent.finalSizeError 4096 8200]
    ∧ ∀ n, TransferEvent.dataMismatch 5 n
        ∉ (transferCompareFile 8200 8200 8200 divergeAtFive allZero).events := by
  have haux := transferCompareFile_divergence_aux 8200 5 divergeAtFive allZero
    (by decide) (by decide) (by decide)
  refine ⟨by decide, by decide, ?_, ?_⟩
  · rw [haux]
  · intro n
    rw [haux]
    intro hmem
    rcases List.mem_cons.mp hmem with h | hmem
    · exact TransferEvent.noConfusion h
    · rcases List.mem_cons.mp hmem with h | hmem
      · have h1 : (5 : Nat) = 4096 * (5 / 4096) := by injection h
        omega
      · rcases List.mem_cons.mp hmem with h | hmem
        · exact TransferEvent.noConfusion h
        · exact absurd hmem (List.not_mem_nil _)

/-- **C4 (amended).** Given remote and local data agreeing for the first
`N` bytes and diverging at byte `N`, with the 4096-byte chunk containing
`N` not the transfer's final chunk, the run stops and reports a
data-mismatch outcome whose reported offset is the start of the chunk
containing `N` — the chunk-aligned `4096 * (N / 4096)`, equal to `N`
exactly when the divergence falls on a chunk boundary — and reads no
further than one chunk past `N` (`totalRead ≤ N + 4096`). -/
theorem transferCompareFile_dataMismatch_chunkAligned (expectedSize N : Nat)
    (remote localData : Nat → Nat)
    (hagree : ∀ i, i < N → remote i = localData i) (hdiv : remote N ≠ localData N)
    (hnonfinal : 4096 * (N / 4096) + 4096 < expectedSize) :
    transferCompareFile expectedSize expectedSize expectedSize remote localData =
      ⟨[TransferEvent.sizeMatch expectedSize expectedSize,
         TransferEvent.dataMismatch (4096 * (N / 4096)) 4096,
         TransferEvent.finalSizeError (4096 * (N / 4096) + 4096) expectedSize],
        4096 * (N / 4096) + 4096, 4096 * (N / 4096) + 4096⟩
    ∧ 4096 * (N / 4096) ≤ N ∧ N < 4096 * (N / 4096) + 4096
    ∧ 4096 * (N / 4096) + 4096 ≤ N + 4096 :=
  ⟨transferCompareFile_divergence_aux expectedSize N remote localData hagree hdiv hnonfinal,
    by omega, by omega, by omega⟩

/-- **C4 (amended, witness).** Concrete instance of the chunk-aligned
mismatch report: divergence at byte 5 of an 8200-byte transfer is
reported at offset `4096 * (5 / 4096) = 0`. -/
theorem transferCompareFile_dataMismatch_chunkAligned_witness :
    transferCompareFile 8200 8200 8200 divergeAtFive allZero =
      ⟨[TransferEvent.sizeMatch 8200 8200,
         TransferEvent.dataMismatch (4096 * (5 / 4096)) 4096,
         TransferEvent.finalSizeError (4096 * (5 / 4096) + 4096) 8200],
        4096 * (5 / 4096) + 4096, 4096 * (5 / 4096) + 4096⟩
    ∧ 4096 * (5 / 4096) ≤ 5 ∧ 5 < 4096 * (5 / 4096) + 4096
    ∧ 4096 * (5 / 4096) + 4096 ≤ 5 + 4096 :=
  transferCompareFile_dataMismatch_chunkAligned 8200 5 divergeAtFive allZero
    (by decide) (by decide) (by decide)

/-- **C5 (code bug).** A 10-byte transfer whose remote bytes all differ
from the local file: the loop's `EVERYTHING READ` break fires on the
final (here: only) chunk *before* the local range is read and compared,
so the run finishes with `Finished reading` and `comparedBytes = 0` —
no byte was ever compared and no mismatch is reported, contradicting the
claim (and the function's stated purpose) that every successfully read
chunk, the final one included, is compared before success. -/
theorem transferCompareFile_finalChunk_notCompared_cx :
    (∀ i, i < 10 → allOnes i ≠ allZero i)
    ∧ transferCompareFile 10 10 10 allOnes allZero =
        ⟨[TransferEvent.sizeMatch 10 10, TransferEvent.terminateEverythingRead 10 10,
           TransferEvent.finishedReading 10 10], 10, 0⟩ := by
  constructor
  · decide
  · have hloop := transferCompareLoop_final allOnes allZero 0 10 0 0 (by omega) (by omega)
    unfold transferCompareFile
    rw [if_neg (by omega), if_neg (by omega), hloop]
    norm_num

/-- **C8 (amended, witness).** Concrete instance: a drained reader whose
first two read attempts fail, with the signal raised at the second poll,
returns `("", false, true)`. -/
theorem readUserText_drained_terminates_witness :
    readUserText [ReadAttempt.readErr, ReadAttempt.readErr] (fun j => j == 1)
      = ReadUserTextResult.returns "" false true :=
  readUserText_drained_terminates [ReadAttempt.readErr, ReadAttempt.readErr]
    (fun j => j == 1) 1 (by decide) (by decide) (by decide)
